import Mathlib

/-!
Verification development for the hierarchical memory management subsystem of
the `claude-engineer` repository.  The Python prototype (`src/ce3/ce3.py.broken`,
class `Memory`) is embedded as pure state-passing functions; the dashboard
record types (`src/visualization/memory-dashboard/server/types.ts`) are embedded
as inductive types and structures.  The token encoder (`tiktoken` `cl100k_base`)
is external to the repository and is modelled as an arbitrary function
`enc : String → Nat` standing for `len(self.encoder.encode(content))`;
wall-clock time (`time.time()`) is passed explicitly as a `Nat` argument `now`.
-/

/-- One entry of `Memory.full_history`: the dict built in `Memory.add_message`
(fields `role`, `content`, `timestamp`, `tokens`, `metadata`).  The metadata
dict is modelled as an association list of string keys to booleans, which covers
every value the source ever stores there (`{"is_summary": True}`). -/
structure Msg where
  role : String
  content : String
  timestamp : Nat
  tokens : Nat
  metadata : List (String × Bool)
deriving Repr, DecidableEq

/-- The mutable state of class `Memory` (`src/ce3/ce3.py.broken`, lines 71-80):
`full_history`, `total_tokens`, `last_compression`.  The constant thresholds are
separate definitions below; `summary`/`encoder` hold no state relevant here. -/
structure Memory where
  full_history : List Msg
  total_tokens : Nat
  last_compression : Nat
deriving Repr, DecidableEq

/-- `self.MAX_TOKEN_THRESHOLD = 3000` (ce3.py.broken line 76). -/
def MAX_TOKEN_THRESHOLD : Nat := 3000

/-- `self.MAX_MESSAGES = 50` (ce3.py.broken line 77). -/
def MAX_MESSAGES : Nat := 50

/-- `self.TIME_THRESHOLD = 3600` (ce3.py.broken line 78). -/
def TIME_THRESHOLD : Nat := 3600

/-- `self.PRESERVE_MESSAGES = 10` (ce3.py.broken line 79). -/
def PRESERVE_MESSAGES : Nat := 10

/-- Fresh `Memory` as built by `Memory.__init__` at time `t0`. -/
def initMemory (t0 : Nat) : Memory :=
  { full_history := [], total_tokens := 0, last_compression := t0 }

/-- Number of messages in `msgs` whose `role` is `"user"`
(`user_messages` in `Memory._generate_summary`). -/
def userCount (msgs : List Msg) : Nat :=
  (msgs.filter (fun m => m.role == "user")).length

/-- Number of messages in `msgs` whose `role` is `"assistant"`
(`assistant_messages` in `Memory._generate_summary`). -/
def asstCount (msgs : List Msg) : Nat :=
  (msgs.filter (fun m => m.role == "assistant")).length

/-- `Memory._generate_summary` (ce3.py.broken lines 133-146): header line, then
one line per nonempty role group, joined with newlines. -/
def generate_summary (messages : List Msg) : String :=
  String.intercalate "\n"
    (["Previous conversation summary:"]
      ++ (if userCount messages > 0 then
            ["- User made " ++ toString (userCount messages) ++ " requests"]
          else [])
      ++ (if asstCount messages > 0 then
            ["- Assistant provided " ++ toString (asstCount messages) ++ " responses"]
          else []))

/-- `sum(msg["tokens"] for msg in l)`. -/
def sum_tokens (l : List Msg) : Nat :=
  (l.map Msg.tokens).sum

/-- The `summary_message` dict built in `Memory._compress_context`
(ce3.py.broken lines 120-126) for the batch `older`. -/
def summary_msg (enc : String → Nat) (now : Nat) (older : List Msg) : Msg :=
  { role := "system"
    content := generate_summary older
    timestamp := now
    tokens := enc (generate_summary older)
    metadata := [("is_summary", true)] }

/-- `Memory._compress_context` (ce3.py.broken lines 109-131): early return when
at most `PRESERVE_MESSAGES` messages are present; otherwise replace everything
but the last `PRESERVE_MESSAGES` messages (`full_history[:-10]`) with a single
summary message, recompute `total_tokens` by summation, stamp
`last_compression`. -/
def compress_context (enc : String → Nat) (now : Nat) (m : Memory) : Memory :=
  if m.full_history.length ≤ PRESERVE_MESSAGES then m
  else
    let recent := m.full_history.drop (m.full_history.length - PRESERVE_MESSAGES)
    let older := m.full_history.take (m.full_history.length - PRESERVE_MESSAGES)
    { full_history := summary_msg enc now older :: recent
      total_tokens := sum_tokens (summary_msg enc now older :: recent)
      last_compression := now }

/-- The `should_compress` boolean of `Memory._check_compression_triggers`
(ce3.py.broken lines 100-104). -/
def should_compress (now : Nat) (m : Memory) : Bool :=
  decide (m.total_tokens > MAX_TOKEN_THRESHOLD)
    || decide (m.full_history.length > MAX_MESSAGES)
    || decide (now - m.last_compression > TIME_THRESHOLD)

/-- `Memory._check_compression_triggers` (ce3.py.broken lines 95-107). -/
def check_compression_triggers (enc : String → Nat) (now : Nat) (m : Memory) : Memory :=
  if should_compress now m then compress_context enc now m else m

/-- The append step of `Memory.add_message` (ce3.py.broken lines 84-92):
build the message dict, append it, bump `total_tokens`. -/
def append_message (enc : String → Nat) (now : Nat) (role content : String)
    (md : List (String × Bool)) (m : Memory) : Memory :=
  { full_history := m.full_history ++
      [{ role := role, content := content, timestamp := now,
         tokens := enc content, metadata := md }]
    total_tokens := m.total_tokens + enc content
    last_compression := m.last_compression }

/-- `Memory.add_message` (ce3.py.broken lines 82-93): append, then check the
compression triggers. -/
def add_message (enc : String → Nat) (now : Nat) (role content : String)
    (md : List (String × Bool)) (m : Memory) : Memory :=
  check_compression_triggers enc now (append_message enc now role content md m)

/-- The arguments of one `add_message` call (its wall-clock instant and the
three Python parameters). -/
structure Ingest where
  now : Nat
  role : String
  content : String
  metadata : List (String × Bool)
deriving Repr, DecidableEq

/-- Run a sequence of `add_message` calls against a fresh `Memory` created at
time `t0`. -/
def run (enc : String → Nat) (t0 : Nat) (ops : List Ingest) : Memory :=
  ops.foldl (fun m op => add_message enc op.now op.role op.content op.metadata m)
    (initMemory t0)

/-- The bookkeeping invariant: the incrementally maintained counter
`total_tokens` equals the sum of the `tokens` fields in `full_history`. -/
def TokensInv (m : Memory) : Prop :=
  m.total_tokens = sum_tokens m.full_history

theorem sum_tokens_append (l₁ l₂ : List Msg) :
    sum_tokens (l₁ ++ l₂) = sum_tokens l₁ + sum_tokens l₂ := by
  simp [sum_tokens]

theorem compress_context_inv (enc : String → Nat) (now : Nat) (m : Memory)
    (h : TokensInv m) : TokensInv (compress_context enc now m) := by
  unfold compress_context
  split
  · exact h
  · exact rfl

theorem append_message_inv (enc : String → Nat) (now : Nat) (role content : String)
    (md : List (String × Bool)) (m : Memory) (h : TokensInv m) :
    TokensInv (append_message enc now role content md m) := by
  unfold TokensInv append_message at *
  simp [sum_tokens_append, h, sum_tokens]

theorem add_message_inv (enc : String → Nat) (now : Nat) (role content : String)
    (md : List (String × Bool)) (m : Memory) (h : TokensInv m) :
    TokensInv (add_message enc now role content md m) := by
  unfold add_message check_compression_triggers
  split
  · exact compress_context_inv enc now _ (append_message_inv enc now role content md m h)
  · exact append_message_inv enc now role content md m h

theorem run_inv (enc : String → Nat) (t0 : Nat) (ops : List Ingest) :
    TokensInv (run enc t0 ops) := by
  suffices h : ∀ (l : List Ingest) (m : Memory), TokensInv m →
      TokensInv (l.foldl
        (fun m op => add_message enc op.now op.role op.content op.metadata m) m) by
    exact h ops (initMemory t0) rfl
  intro l
  induction l with
  | nil => intro m hm; exact hm
  | cons op rest ih =>
      intro m hm
      exact ih _ (add_message_inv enc op.now op.role op.content op.metadata m hm)

/-- C10: after every `add_message` call (hence after any sequence of them from a
fresh `Memory`) and after every compression pass, the `total_tokens` counter
equals the sum of the `tokens` fields of the messages in `full_history`: the
incrementally maintained counter never drifts from the true total. -/
theorem c10_total_tokens_consistent (enc : String → Nat) (t0 : Nat)
    (ops : List Ingest) :
    TokensInv (run enc t0 ops) ∧
    ∀ now : Nat, TokensInv (compress_context enc now (run enc t0 ops)) :=
  ⟨run_inv enc t0 ops,
   fun now => compress_context_inv enc now _ (run_inv enc t0 ops)⟩

set_option maxRecDepth 10000

/-- Helper for concrete test messages: empty metadata. -/
def mkMsg (r c : String) (t tok : Nat) : Msg :=
  { role := r, content := c, timestamp := t, tokens := tok, metadata := [] }

/-- A 400-character content string (each character counts 1 under the
length-based encoder used in the concrete scenarios). -/
def bigStr : String := String.mk (List.replicate 400 'a')

/-- Eleven user ingests of 400 tokens each, all at time 0. -/
def opsC1 : List Ingest :=
  List.replicate 11 { now := 0, role := "user", content := bigStr, metadata := [] }

/-- C1 counterexample: after the eleventh ingest the trigger fires
(total 4400 > 3000) and a compression pass completes — the resulting head of
`full_history` is the synthetic system summary — yet the store's total token
size is 4053, still above the working-capacity threshold (3000): a completed
pass does not establish the capacity bound. -/
theorem c1_counterexample :
    (run String.length 0 opsC1).full_history.head?.map Msg.role = some "system" ∧
    ¬ ((run String.length 0 opsC1).total_tokens ≤ MAX_TOKEN_THRESHOLD) ∧
    (run String.length 0 opsC1).total_tokens = 4053 := by decide

/-- C1 (amended): a completed compression pass bounds the record COUNT of the
working history — afterwards it holds `min (previous count) (PRESERVE_MESSAGES + 1)`
records — but it does not bound the total token size, which may remain above
`MAX_TOKEN_THRESHOLD`; the code has no short-term tier. -/
theorem c1_amended (enc : String → Nat) (now : Nat) (m : Memory) :
    (compress_context enc now m).full_history.length
      = min m.full_history.length (PRESERVE_MESSAGES + 1) := by
  unfold compress_context
  split
  · rename_i h
    unfold PRESERVE_MESSAGES at *
    omega
  · rename_i h
    simp only [List.length_cons, List.length_drop]
    unfold PRESERVE_MESSAGES at *
    omega

/-- Twelve alternating user/assistant messages of 2 tokens each. -/
def mC2 : Memory :=
  { full_history := (List.range 12).map
      (fun i => mkMsg (if i % 2 == 0 then "user" else "assistant") "hi" i 2)
    total_tokens := 24
    last_compression := 0 }

/-- C2 counterexample: compressing a 12-message store leaves 11 records (the 10
preserved plus the summary), not exactly `PRESERVE_MESSAGES = 10`; the summary
record sits at the head of the working history itself — there is no separate
`short_term` store for it to enter. -/
theorem c2_counterexample :
    (compress_context String.length 99 mC2).full_history.length = 11 ∧
    ¬ ((compress_context String.length 99 mC2).full_history.length
        = PRESERVE_MESSAGES) ∧
    (compress_context String.length 99 mC2).full_history.head?.map Msg.role
      = some "system" ∧
    (compress_context String.length 99 mC2).full_history.head?.map
        (fun msg => msg.metadata) = some [("is_summary", true)] := by decide

/-- C2 (amended): a compression pass over a store holding more than
`PRESERVE_MESSAGES` records leaves exactly the `PRESERVE_MESSAGES` most recent
records plus the single synthetic summary record prepended to the same (working)
history — the summary is not moved to any other tier — and the compressed
originals are gone from the history. -/
theorem compress_history_eq (enc : String → Nat) (now : Nat) (m : Memory)
    (h : PRESERVE_MESSAGES < m.full_history.length) :
    (compress_context enc now m).full_history =
      summary_msg enc now
          (m.full_history.take (m.full_history.length - PRESERVE_MESSAGES))
        :: m.full_history.drop (m.full_history.length - PRESERVE_MESSAGES) := by
  unfold compress_context
  rw [if_neg (not_le.mpr h)]

theorem c2_amended (enc : String → Nat) (now : Nat) (m : Memory)
    (h : PRESERVE_MESSAGES < m.full_history.length) :
    (compress_context enc now m).full_history =
      summary_msg enc now
          (m.full_history.take (m.full_history.length - PRESERVE_MESSAGES))
        :: m.full_history.drop (m.full_history.length - PRESERVE_MESSAGES) :=
  compress_history_eq enc now m h

/-- C2 witness: the amended statement evaluated on the concrete 12-message
store. -/
theorem c2_amended_witness :
    PRESERVE_MESSAGES < mC2.full_history.length ∧
    (compress_context String.length 99 mC2).full_history =
      summary_msg String.length 99
          (mC2.full_history.take (mC2.full_history.length - PRESERVE_MESSAGES))
        :: mC2.full_history.drop (mC2.full_history.length - PRESERVE_MESSAGES) :=
  ⟨by decide, c2_amended String.length 99 mC2 (by decide)⟩

/-- A single 5000-token message: over capacity yet within the preserve floor. -/
def mC4 : Memory :=
  { full_history := [mkMsg "user" "big" 0 5000]
    total_tokens := 5000
    last_compression := 0 }

/-- C4 counterexample: with one 5000-token record the store is over the
3000-token threshold, but the pass returns the state unchanged — it never
compresses inside the preserve window, leaving the tier over budget with
`PRESERVE_MESSAGES` or fewer records present. -/
theorem c4_counterexample :
    mC4.full_history.length ≤ PRESERVE_MESSAGES ∧
    MAX_TOKEN_THRESHOLD < mC4.total_tokens ∧
    compress_context String.length 7 mC4 = mC4 ∧
    ¬ ((compress_context String.length 7 mC4).total_tokens
        ≤ MAX_TOKEN_THRESHOLD) := by decide

/-- C4 (amended): whenever at most `PRESERVE_MESSAGES` records are present, the
compression pass is a no-op regardless of total token size — the preserve-count
floor overrides the capacity constraint, the opposite of the claimed
precedence. -/
theorem c4_amended (enc : String → Nat) (now : Nat) (m : Memory)
    (h : m.full_history.length ≤ PRESERVE_MESSAGES) :
    compress_context enc now m = m := by
  unfold compress_context
  rw [if_pos h]

/-- C4 witness: the amended no-op statement evaluated on the concrete
over-budget single-record store. -/
theorem c4_amended_witness :
    mC4.full_history.length ≤ PRESERVE_MESSAGES ∧
    compress_context String.length 7 mC4 = mC4 :=
  ⟨by decide, c4_amended String.length 7 mC4 (by decide)⟩

/-- Eleven zero-token user messages (empty content). -/
def mC5 : Memory :=
  { full_history := List.replicate 11 (mkMsg "user" "" 0 0)
    total_tokens := 0
    last_compression := 0 }

/-- C5 counterexample: compressing eleven empty (0-token) messages produces a
summary whose own token count (53 under the length encoder) exceeds the sum of
the originals' token counts (0); no verbatim-migration fallback exists, so the
pass strictly increases total token volume. -/
theorem c5_counterexample :
    mC5.total_tokens = 0 ∧
    (compress_context String.length 3 mC5).total_tokens = 53 ∧
    ¬ ((compress_context String.length 3 mC5).total_tokens
        ≤ mC5.total_tokens) := by decide

/-- C5 (amended): the pass unconditionally replaces the older messages by the
summary record — the resulting total is always the summary's encoded size plus
the preserved messages' tokens, with no comparison against the originals and no
fallback; total tokens can therefore grow across a pass. -/
theorem c5_amended (enc : String → Nat) (now : Nat) (m : Memory)
    (h : PRESERVE_MESSAGES < m.full_history.length) :
    (compress_context enc now m).total_tokens =
      enc (generate_summary
            (m.full_history.take (m.full_history.length - PRESERVE_MESSAGES)))
        + sum_tokens
            (m.full_history.drop (m.full_history.length - PRESERVE_MESSAGES)) := by
  unfold compress_context
  rw [if_neg (not_le.mpr h)]
  simp [sum_tokens, summary_msg]

/-- C5 witness: the amended total-tokens equation evaluated on the concrete
eleven-empty-message store. -/
theorem c5_amended_witness :
    PRESERVE_MESSAGES < mC5.full_history.length ∧
    (compress_context String.length 3 mC5).total_tokens =
      String.length (generate_summary
          (mC5.full_history.take (mC5.full_history.length - PRESERVE_MESSAGES)))
        + sum_tokens
            (mC5.full_history.drop (mC5.full_history.length - PRESERVE_MESSAGES)) :=
  ⟨by decide, c5_amended String.length 3 mC5 (by decide)⟩

/-- Trigger predicate as the specification words it (spec §4.4): token total
over a working capacity whose default is 8192, record count over 50, or elapsed
time over 3600 s.  Stated for comparison with the source's `should_compress`. -/
def spec_should_compress (now : Nat) (m : Memory) : Bool :=
  decide (m.total_tokens > 8192)
    || decide (m.full_history.length > MAX_MESSAGES)
    || decide (now - m.last_compression > TIME_THRESHOLD)

/-- A single 3500-token message, one record, no elapsed time. -/
def mC3 : Memory :=
  { full_history := [mkMsg "user" "q" 0 3500]
    total_tokens := 3500
    last_compression := 0 }

/-- C3 counterexample: at 3500 total tokens, one record and zero elapsed time,
the code fires a compression pass (its token threshold is
`MAX_TOKEN_THRESHOLD = 3000`), while the claimed trigger with the 8192-token
default says no trigger condition holds. -/
theorem c3_counterexample :
    should_compress 0 mC3 = true ∧ spec_should_compress 0 mC3 = false := by decide

/-- C3 (amended): adding a message triggers a compression pass exactly when, on
the post-append state, the total tokens exceed 3000 (`MAX_TOKEN_THRESHOLD`, not
8192), or the record count exceeds 50, or the wall-clock time since the last
pass exceeds 3600 seconds. -/
theorem c3_amended (enc : String → Nat) (now : Nat) (role content : String)
    (md : List (String × Bool)) (m : Memory) :
    add_message enc now role content md m =
      (if (append_message enc now role content md m).total_tokens > 3000
          ∨ (append_message enc now role content md m).full_history.length > 50
          ∨ now - (append_message enc now role content md m).last_compression > 3600
       then compress_context enc now (append_message enc now role content md m)
       else append_message enc now role content md m) := by
  unfold add_message check_compression_triggers should_compress
  unfold MAX_TOKEN_THRESHOLD MAX_MESSAGES TIME_THRESHOLD
  simp only [Bool.or_eq_true, decide_eq_true_eq, or_assoc]

/-- C6 counterexample: two single-message batches with different contents yield
the very same summary text, and the content of a compressed message does not
occur in the summary — the summary reports role counts only, never key excerpts
of the originals. -/
theorem c6_counterexample :
    generate_summary [mkMsg "user" "alpha" 0 5]
      = generate_summary [mkMsg "user" "beta" 0 4] ∧
    ¬ ("alpha" = "beta") ∧
    ¬ (String.toList "alpha"
        <:+: String.toList (generate_summary [mkMsg "user" "alpha" 0 5])) := by
  decide

/-- C6 (amended): the summary message created by a compression pass carries as
content exactly `generate_summary` of the compressed batch with its `tokens`
field freshly recomputed by encoding that content, and the summary text is a
function of the batch's user-turn and assistant-turn counts alone (so it reports
those counts but contains no excerpts of the originals). -/
theorem c6_amended (enc : String → Nat) (now : Nat) (m : Memory)
    (msgs msgs' : List Msg)
    (h : PRESERVE_MESSAGES < m.full_history.length)
    (hu : userCount msgs = userCount msgs')
    (ha : asstCount msgs = asstCount msgs') :
    (compress_context enc now m).full_history.head?.map Msg.content
      = some (generate_summary
          (m.full_history.take (m.full_history.length - PRESERVE_MESSAGES))) ∧
    (compress_context enc now m).full_history.head?.map Msg.tokens
      = some (enc (generate_summary
          (m.full_history.take (m.full_history.length - PRESERVE_MESSAGES)))) ∧
    generate_summary msgs = generate_summary msgs' := by
  refine ⟨?_, ?_, ?_⟩
  · rw [compress_history_eq enc now m h]
    rfl
  · rw [compress_history_eq enc now m h]
    rfl
  · unfold generate_summary
    rw [hu, ha]

/-- C6 witness: the amended statement evaluated on the concrete 12-message
store and two concrete batches with equal role counts. -/
theorem c6_amended_witness :
    PRESERVE_MESSAGES < mC2.full_history.length ∧
    userCount [mkMsg "user" "alpha" 0 5] = userCount [mkMsg "user" "beta" 0 4] ∧
    asstCount [mkMsg "user" "alpha" 0 5] = asstCount [mkMsg "user" "beta" 0 4] ∧
    ((compress_context String.length 99 mC2).full_history.head?.map Msg.content
      = some (generate_summary
          (mC2.full_history.take (mC2.full_history.length - PRESERVE_MESSAGES))) ∧
    (compress_context String.length 99 mC2).full_history.head?.map Msg.tokens
      = some (String.length (generate_summary
          (mC2.full_history.take (mC2.full_history.length - PRESERVE_MESSAGES)))) ∧
    generate_summary [mkMsg "user" "alpha" 0 5]
      = generate_summary [mkMsg "user" "beta" 0 4]) :=
  ⟨by decide, by decide, by decide,
   c6_amended String.length 99 mC2 [mkMsg "user" "alpha" 0 5]
     [mkMsg "user" "beta" 0 4] (by decide) (by decide) (by decide)⟩

/-- The `level` field's string-literal union type of `MemoryBlock`
(`src/visualization/memory-dashboard/server/types.ts`, line 4):
`'working' | 'short_term' | 'long_term'` — three alternatives. -/
inductive Level where
  | working
  | short_term
  | long_term
deriving DecidableEq, Repr, Fintype

/-- The string literal denoted by each `Level` alternative. -/
def levelName : Level → String
  | Level.working => "working"
  | Level.short_term => "short_term"
  | Level.long_term => "long_term"

/-- Every alternative of the union, in source order. -/
def Level.all : List Level :=
  [Level.working, Level.short_term, Level.long_term]

/-- The `MemoryBlock` record (`types.ts` lines 1-10); `Date` fields become
natural-number timestamps. -/
structure MemoryBlock where
  id : String
  content : String
  level : Level
  created_at : Nat
  last_accessed : Nat
  access_count : Nat
  tokens : Nat
  w3w : String
deriving DecidableEq, Repr

/-- C7 counterexample: the record type's `level` union has exactly the three
alternatives `working`, `short_term`, `long_term`; no alternative denotes
`"stale"`, so a record cannot reside in a distinct stale tier. -/
theorem c7_counterexample :
    Level.all.map levelName = ["working", "short_term", "long_term"] ∧
    ¬ (∃ l : Level, levelName l = "stale") := by decide

/-- C7 (amended): every memory record's tier (`level`) field takes one of
exactly the three distinct values `working`, `short_term`, `long_term`; the
record type has no fourth `stale` tier. -/
theorem c7_amended :
    (∀ b : MemoryBlock, levelName b.level ∈ (["working", "short_term", "long_term"] : List String)) ∧
    (["working", "short_term", "long_term"] : List String).Nodup ∧
    (∀ s ∈ (["working", "short_term", "long_term"] : List String),
      ∃ l : Level, levelName l = s) := by
  refine ⟨?_, by decide, by decide⟩
  intro b
  cases h : b.level <;> simp [levelName]

/-- Modelled from the spec: the four-tier ordering of §3 and the glossary
(`working`=0 < `short_term`=1 < `long_term`=2 < `stale`=3).  No tier-transition
logic is implemented under `src/` (the dashboard only declares record shapes),
so the transition system below follows the spec's words. -/
inductive Tier where
  | working
  | short_term
  | long_term
  | stale
deriving DecidableEq, Repr

/-- Tier index per the spec's stated ordering. -/
def tierIdx : Tier → Nat
  | Tier.working => 0
  | Tier.short_term => 1
  | Tier.long_term => 2
  | Tier.stale => 3

/-- Modelled from the spec: one allowed change of a record's `tier` field (§3
invariant) — either a forward move along the ordering (or staying put), or the
access-triggered promotion of §4.5 moving a record from `long_term`/`stale`
back to `short_term`. -/
inductive TierStep : Tier → Tier → Prop where
  | forward (t u : Tier) : tierIdx t ≤ tierIdx u → TierStep t u
  | promote (t : Tier) : t = Tier.long_term ∨ t = Tier.stale →
      TierStep t Tier.short_term

/-- A step is an explicit promotion when it lands in `short_term` coming from
`long_term` or `stale` (tier index at least 2). -/
def IsPromotion (t u : Tier) : Prop :=
  u = Tier.short_term ∧ 2 ≤ tierIdx t

instance (t u : Tier) : Decidable (IsPromotion t u) :=
  decidable_of_iff (u = Tier.short_term ∧ 2 ≤ tierIdx t) Iff.rfl

/-- C9: along every execution trace of tier transitions containing no explicit
promotion step, the record's tier index never decreases: any later tier in the
trace has an index at least that of any earlier one. -/
theorem c9_tier_monotone (trace : List Tier)
    (h : List.Chain' (fun t u => TierStep t u ∧ ¬ IsPromotion t u) trace) :
    List.Pairwise (fun t u => tierIdx t ≤ tierIdx u) trace := by
  have mono : List.Chain' (fun t u : Tier => tierIdx t ≤ tierIdx u) trace := by
    refine List.Chain'.imp ?_ h
    rintro t u ⟨hs, hnp⟩
    cases hs with
    | forward _ hle => exact hle
    | promote ht =>
        exact absurd ⟨rfl, by rcases ht with h1 | h1 <;> simp [h1, tierIdx]⟩ hnp
  have : IsTrans Tier (fun t u : Tier => tierIdx t ≤ tierIdx u) :=
    ⟨fun _ _ _ hab hbc => le_trans hab hbc⟩
  exact List.chain'_iff_pairwise.mp mono

/-- C9 witness: the full demotion trace `working → short_term → long_term →
stale` contains no promotion step, and the conclusion holds on it. -/
theorem c9_tier_monotone_witness :
    List.Pairwise (fun t u => tierIdx t ≤ tierIdx u)
      [Tier.working, Tier.short_term, Tier.long_term, Tier.stale] :=
  c9_tier_monotone [Tier.working, Tier.short_term, Tier.long_term, Tier.stale]
    (by
      refine List.chain'_cons.mpr ⟨⟨TierStep.forward _ _ (by decide), by decide⟩, ?_⟩
      refine List.chain'_cons.mpr ⟨⟨TierStep.forward _ _ (by decide), by decide⟩, ?_⟩
      refine List.chain'_cons.mpr ⟨⟨TierStep.forward _ _ (by decide), by decide⟩, ?_⟩
      exact List.chain'_singleton _)

/-- The `significance_type` union of `NexusPoint` (`types.ts` line 15):
`'user' | 'llm' | 'system'`. -/
inductive SigType where
  | user
  | llm
  | system
deriving DecidableEq, Repr

/-- The `NexusPoint` record (`types.ts` lines 12-20); the `related_points`
`Set<string>` is modelled as a list kept duplicate-free by membership-checked
insertion, and `Date` becomes a natural-number timestamp. -/
structure NexusPoint where
  id : String
  memory_block_id : String
  significance_type : SigType
  created_at : Nat
  description : String
  related_points : List String
  w3w : String
deriving DecidableEq, Repr

/-- Modelled from the spec: the failure outcome of §4.3 `link`. -/
inductive LinkError where
  | notFound
deriving DecidableEq, Repr

/-- Whether some point of the registry carries the id `i`. -/
def hasPoint (reg : List NexusPoint) (i : String) : Bool :=
  reg.any (fun p => p.id == i)

/-- Membership-checked insertion of `j` into a point's `related_points` set
(set semantics of `Set<string>.add`). -/
def addRelated (p : NexusPoint) (j : String) : NexusPoint :=
  if p.related_points.contains j then p
  else { p with related_points := p.related_points ++ [j] }

/-- The per-point effect of `link(a,b)`: the point with id `a` gains `b` in its
related set, the point with id `b` gains `a`, all others are untouched. -/
def linkStep (a b : String) (p : NexusPoint) : NexusPoint :=
  if p.id == a then addRelated p b
  else if p.id == b then addRelated p a
  else p

/-- Modelled from the spec: `link(pointIdA, pointIdB)` of the §4.3
NexusRegistry — no registry implementation exists under `src/` (`types.ts`
declares only the `NexusPoint` shape), so this follows the spec's words: the
call fails with `NotFound` if either id is absent, otherwise records the
symmetric relation on both points' related sets, as a no-op when already
linked. -/
def link (reg : List NexusPoint) (a b : String) :
    Except LinkError (List NexusPoint) :=
  if hasPoint reg a && hasPoint reg b then
    Except.ok (reg.map (linkStep a b))
  else
    Except.error LinkError.notFound

theorem addRelated_id (p : NexusPoint) (j : String) :
    (addRelated p j).id = p.id := by
  unfold addRelated
  split <;> rfl

theorem linkStep_id (a b : String) (p : NexusPoint) :
    (linkStep a b p).id = p.id := by
  unfold linkStep
  split
  · exact addRelated_id p b
  · split
    · exact addRelated_id p a
    · rfl

theorem mem_addRelated (p : NexusPoint) (j : String) :
    j ∈ (addRelated p j).related_points := by
  unfold addRelated
  split
  · rename_i h
    simpa using h
  · simp

theorem addRelated_stable (q : NexusPoint) (j : String)
    (hq : q.related_points.contains j = true) : addRelated q j = q := by
  unfold addRelated
  rw [if_pos hq]

theorem addRelated_idem (p : NexusPoint) (j : String) :
    addRelated (addRelated p j) j = addRelated p j := by
  by_cases h : p.related_points.contains j = true
  · rw [addRelated_stable p j h]
    exact addRelated_stable p j h
  · refine addRelated_stable _ j ?_
    unfold addRelated
    rw [if_neg h]
    simp

theorem linkStep_idem (a b : String) (p : NexusPoint) :
    linkStep a b (linkStep a b p) = linkStep a b p := by
  by_cases ha : (p.id == a) = true
  · simp [linkStep, ha, addRelated_id, addRelated_idem]
  · by_cases hb : (p.id == b) = true
    · simp [linkStep, ha, hb, addRelated_id, addRelated_idem]
    · simp [linkStep, ha, hb]

theorem hasPoint_map_linkStep (a b : String) (reg : List NexusPoint)
    (x : String) :
    hasPoint (reg.map (linkStep a b)) x = hasPoint reg x := by
  unfold hasPoint
  induction reg with
  | nil => rfl
  | cons p rest ih => simp [List.any_cons, linkStep_id, ih]

theorem map_linkStep_idem (a b : String) (reg : List NexusPoint) :
    (reg.map (linkStep a b)).map (linkStep a b) = reg.map (linkStep a b) := by
  rw [List.map_map]
  exact List.map_congr_left (fun p _ => linkStep_idem a b p)

theorem linked_contains_b (a b : String) (reg : List NexusPoint)
    (p : NexusPoint) (hp : p ∈ reg.map (linkStep a b)) (hid : p.id = a) :
    b ∈ p.related_points := by
  rcases List.mem_map.mp hp with ⟨q, _, rfl⟩
  unfold linkStep at hid ⊢
  by_cases h1 : (q.id == a) = true
  · simp only [h1, if_pos]
    exact mem_addRelated q b
  · by_cases h2 : (q.id == b) = true
    · rw [if_neg (by simp [h1]), if_pos h2] at hid
      rw [addRelated_id] at hid
      exact absurd (by simp [hid]) h1
    · rw [if_neg (by simp [h1]), if_neg (by simp [h2])] at hid
      exact absurd (by simp [hid]) h1

theorem linked_contains_a (a b : String) (reg : List NexusPoint)
    (p : NexusPoint) (hp : p ∈ reg.map (linkStep a b)) (hid : p.id = b) :
    a ∈ p.related_points := by
  rcases List.mem_map.mp hp with ⟨q, _, rfl⟩
  unfold linkStep at hid ⊢
  by_cases h1 : (q.id == a) = true
  · simp only [h1, if_pos] at hid ⊢
    rw [addRelated_id] at hid
    have hab : a = b := by
      have := (beq_iff_eq).mp h1
      rw [← this, hid]
    rw [hab]
    exact mem_addRelated q b
  · by_cases h2 : (q.id == b) = true
    · simp only [if_neg (by simp [h1] : ¬ ((q.id == a) = true)), h2, if_pos] at hid ⊢
      exact mem_addRelated q a
    · rw [if_neg (by simp [h1]), if_neg (by simp [h2])] at hid
      exact absurd (by simp [hid]) h2

/-- C8: for registries in which both ids resolve, `link` is idempotent — a
second `link(a,b)` on the updated registry returns the registry unchanged, so
every related set equals what a single call produced — and symmetric: after the
call, whenever a point with id `a` relates to `b`, the point with id `b`
relates to `a` (both containments hold outright). -/
theorem c8_link_idem_symm (reg : List NexusPoint) (a b : String)
    (reg' : List NexusPoint) (h : link reg a b = Except.ok reg') :
    link reg' a b = Except.ok reg' ∧
    (∀ p ∈ reg', p.id = a → b ∈ p.related_points) ∧
    (∀ p ∈ reg', p.id = b → a ∈ p.related_points) := by
  unfold link at h
  by_cases hg : (hasPoint reg a && hasPoint reg b) = true
  · rw [if_pos hg] at h
    have hr : reg.map (linkStep a b) = reg' := by injection h
    subst hr
    refine ⟨?_, ?_, ?_⟩
    · unfold link
      rw [hasPoint_map_linkStep, hasPoint_map_linkStep, if_pos hg,
        map_linkStep_idem]
    · intro p hp hid
      exact linked_contains_b a b reg p hp hid
    · intro p hp hid
      exact linked_contains_a a b reg p hp hid
  · rw [if_neg hg] at h
    simp at h

/-- A two-point registry with ids `"a"` and `"b"`, not yet linked. -/
def regW : List NexusPoint :=
  [{ id := "a", memory_block_id := "blk1", significance_type := SigType.user,
     created_at := 1, description := "first", related_points := [],
     w3w := "apple.river.stone" },
   { id := "b", memory_block_id := "blk2", significance_type := SigType.llm,
     created_at := 2, description := "second", related_points := [],
     w3w := "cloud.ember.grove" }]

/-- The registry after `link regW "a" "b"`. -/
def regW2 : List NexusPoint := regW.map (linkStep "a" "b")

/-- C8 witness: the idempotence and symmetry statement evaluated on the
concrete two-point registry. -/
theorem c8_link_idem_symm_witness :
    link regW "a" "b" = Except.ok regW2 ∧
    link regW2 "a" "b" = Except.ok regW2 ∧
    (∀ p ∈ regW2, p.id = "a" → "b" ∈ p.related_points) ∧
    (∀ p ∈ regW2, p.id = "b" → "a" ∈ p.related_points) := by
  have h : link regW "a" "b" = Except.ok regW2 := by rfl
  obtain ⟨h1, h2, h3⟩ := c8_link_idem_symm regW "a" "b" regW2 h
  exact ⟨h, h1, h2, h3⟩
